import Mathlib

/-!
Verification development for braw2ilpd (src/braw2ilpd.cpp), a tool that
extracts immersive-video attributes from a Blackmagic RAW clip, decodes
each tagged-union value, derives an output name, and persists files with
a write-temp-then-rename discipline.

The definitions below are a shallow embedding of the C++ source.  Machine
integers are modelled as Nat (the quantities involved are bounded well
below any wrap point: element counts are uint32, sizes are computed in
uint64, so Nat arithmetic is exact).  Strings are modelled as Lean
String, paths as POSIX-style strings with separator slash.  The external
BlackmagicRawAPI header is not part of the repository; its variant-tag
constants are modelled as distinct Nat codes, and no theorem depends on
the particular numbers, only on their distinctness.
-/

namespace Braw2Ilpd

/-! ### Association lists (model of std::map keyed access) -/

def assocGet {α β : Type} [DecidableEq α] : List (α × β) → α → Option β
  | [], _ => none
  | (k, v) :: t, a => if k = a then some v else assocGet t a

def assocSet {α β : Type} [DecidableEq α] : List (α × β) → α → β → List (α × β)
  | [], a, b => [(a, b)]
  | (k, v) :: t, a, b => if k = a then (k, b) :: t else (k, v) :: assocSet t a b

def assocErase {α β : Type} [DecidableEq α] : List (α × β) → α → List (α × β)
  | [], _ => []
  | (k, v) :: t, a => if k = a then assocErase t a else (k, v) :: assocErase t a

/-! ### Path helpers

Model of the std::filesystem::path operations the source relies on, for
POSIX paths (the tool targets macOS): filename is the component after the
last slash, extension starts at the last dot of the filename unless the
filename is a dot-file, dot or dot-dot, stem is the filename without the
extension. -/

def findLastOfAux (c : Char) : List Char → Nat → Option Nat
  | [], _ => none
  | x :: xs, i =>
    match findLastOfAux c xs (i + 1) with
    | some j => some j
    | none => if x = c then some i else none

/-- Model of std::string::find_last_of for a single character: index of the
last occurrence, none standing for npos. -/
def findLastOf (c : Char) (s : List Char) : Option Nat :=
  findLastOfAux c s 0

/-- Model of path::filename on POSIX: the part after the last slash. -/
def filenameOf (s : String) : String :=
  ⟨(s.data.reverse.takeWhile (fun c => c ≠ '/')).reverse⟩

def stemOfFilename (f : List Char) : List Char :=
  if f = ['.'] ∨ f = ['.', '.'] then f
  else
    match findLastOf '.' f with
    | none => f
    | some 0 => f
    | some i => f.take i

/-- Model of path::stem: filename with its extension removed. -/
def pathStem (s : String) : String :=
  ⟨stemOfFilename (filenameOf s).data⟩

/-- Model of path::extension: from the last dot of the filename to its end,
empty for dot-files, dot and dot-dot. -/
def extensionOf (s : String) : String :=
  let f := (filenameOf s).data
  if f = ['.'] ∨ f = ['.', '.'] then ""
  else
    match findLastOf '.' f with
    | none => ""
    | some 0 => ""
    | some i => ⟨f.drop i⟩

/-- True when the path begins with a slash (POSIX is_absolute). -/
def isAbsolutePath (s : String) : Bool :=
  match s.data with
  | c :: _ => c = '/'
  | [] => false

/-- Model of path::operator/ on POSIX for the cases the source exercises. -/
def joinPath (p q : String) : String :=
  if isAbsolutePath q then q
  else if p = "" then q
  else if p.data.getLast? = some '/' then p ++ q
  else p ++ "/" ++ q

/-- Model of path::parent_path on POSIX: everything before the filename,
with trailing separators stripped unless the result is the root. -/
def parentPath (s : String) : String :=
  let pre := s.data.take (s.data.length - (filenameOf s).data.length)
  if pre = [] then ""
  else if pre.all (fun c => c = '/') then "/"
  else ⟨pre.reverse.dropWhile (fun c => c = '/') |>.reverse⟩

/-- Model of std::filesystem::absolute: prepend the current directory to a
relative path, keep an absolute path as is. -/
def fsAbsolute (cwd p : String) : String :=
  if isAbsolutePath p then p else joinPath cwd p

/-! ### Variant model (tagged-union values from the external SDK)

The numeric tag constants mirror the external BlackmagicRawAPI header,
which is not part of this repository; no theorem depends on the chosen
numbers, only on their pairwise distinctness, which the source switch
statements also rely on. -/

def blackmagicRawVariantTypeEmpty : Nat := 0
def blackmagicRawVariantTypeU8 : Nat := 1
def blackmagicRawVariantTypeS16 : Nat := 2
def blackmagicRawVariantTypeU16 : Nat := 3
def blackmagicRawVariantTypeS32 : Nat := 4
def blackmagicRawVariantTypeU32 : Nat := 5
def blackmagicRawVariantTypeFloat32 : Nat := 6
def blackmagicRawVariantTypeFloat64 : Nat := 7
def blackmagicRawVariantTypeString : Nat := 8
def blackmagicRawVariantTypeSafeArray : Nat := 9

/-- Model of the SafeArray payload reachable through Variant.parray: the
element type tag, the element count (bounds.cElements, a uint32), and the
bytes of the underlying buffer; a none data field models a null data
pointer.  Byte values are octets (below 256) in the source. -/
structure SafeArrayPayload where
  variantType : Nat := 0
  cElements : Nat := 0
  data : Option (List Nat) := none
deriving DecidableEq

/-- Model of the Variant union.  bstrVal models the CFStringRef (none =
null, some s = the decoded UTF-8 text, CFStringToStdString being the
identity on the abstract character data).  The two float fields carry
their ostream rendering as text, since no claim depends on float
formatting. -/
structure Variant where
  vt : Nat := 0
  bstrVal : Option String := none
  uiVal : Nat := 0
  iVal : Int := 0
  intVal : Int := 0
  uintVal : Nat := 0
  fltVal : String := "0"
  dblVal : String := "0"
  parray : Option SafeArrayPayload := none
deriving DecidableEq

/-- Model of the AttrValue cache record of the source. -/
structure AttrValue where
  vt : Nat := 0
  asString : String := ""
  rawValue : String := ""
  rawBytes : List Nat := []
  safeArrayElementCount : Nat := 0
  safeArrayVariantType : Nat := 0
deriving DecidableEq

/-- Element size switch of the SafeArray branch of the source decoder. -/
def elementSizeOf (t : Nat) : Nat :=
  if t = blackmagicRawVariantTypeU8 then 1
  else if t = blackmagicRawVariantTypeS16 ∨ t = blackmagicRawVariantTypeU16 then 2
  else if t = blackmagicRawVariantTypeS32 ∨ t = blackmagicRawVariantTypeU32 ∨
          t = blackmagicRawVariantTypeFloat32 then 4
  else if t = blackmagicRawVariantTypeFloat64 then 8
  else 1

def hexDigit (n : Nat) : Char :=
  Char.ofNat (if n < 10 then 48 + n else 87 + n)

/-- Two lower-case hex digits, zero padded, as std::hex with setw 2 and
setfill zero renders an octet. -/
def hexByte (n : Nat) : String :=
  ⟨[hexDigit (n / 16), hexDigit (n % 16)]⟩

/-- Space-separated hex pairs with no trailing separator, as the preview
loop of the source renders them. -/
def hexSpaced (bs : List Nat) : String :=
  String.intercalate " " (bs.map hexByte)

def PREVIEW_LIMIT : Nat := 512
def COPY_LIMIT : Nat := 64 * 1024

/-- SafeArray branch of variant_to_string_and_store. -/
def decodeSafeArray (pa : SafeArrayPayload) (out : AttrValue) : AttrValue :=
  let out := { out with
    safeArrayElementCount := pa.cElements,
    safeArrayVariantType := pa.variantType }
  match pa.data with
  | some bytes =>
    if pa.cElements > 0 then
      let elementSize := elementSizeOf pa.variantType
      let totalSize := elementSize * pa.cElements
      let copySize := if totalSize > COPY_LIMIT then COPY_LIMIT else totalSize
      let out := if copySize > 0 then { out with rawBytes := bytes.take copySize } else out
      let previewSize := if copySize > PREVIEW_LIMIT then PREVIEW_LIMIT else copySize
      let disp :=
        "SafeArray elems=" ++ toString pa.cElements ++
        ", type=" ++ toString pa.variantType ++
        ", totalSize=" ++ toString totalSize ++
        ", hex(first " ++ toString previewSize ++ " bytes)=" ++
        hexSpaced (bytes.take previewSize) ++
        (if previewSize < totalSize then " ... (truncated)" else "")
      { out with asString := disp }
    else
      { out with asString := "SafeArray(empty)" }
  | none =>
    { out with asString := "SafeArray(empty)" }

/-- Rendering of the final switch of the source decoder: numeric and basic
types, with unknown tags rendered explicitly. -/
def scalarDisplay (v : Variant) : String :=
  if v.vt = blackmagicRawVariantTypeEmpty then "[Empty]"
  else if v.vt = blackmagicRawVariantTypeU8 then "U8 value: " ++ toString v.uiVal
  else if v.vt = blackmagicRawVariantTypeS16 then "S16 value: " ++ toString v.iVal
  else if v.vt = blackmagicRawVariantTypeU16 then "U16 value: " ++ toString v.uiVal
  else if v.vt = blackmagicRawVariantTypeS32 then "S32 value: " ++ toString v.intVal
  else if v.vt = blackmagicRawVariantTypeU32 then "U32 value: " ++ toString v.uintVal
  else if v.vt = blackmagicRawVariantTypeFloat32 then "Float32 value: " ++ v.fltVal
  else if v.vt = blackmagicRawVariantTypeFloat64 then "Float64 value: " ++ v.dblVal
  else "[Unknown vt=" ++ toString v.vt ++ "]"

/-- Model of variant_to_string_and_store: fills the given AttrValue from
the variant exactly as the source branches do.  A String tag with a null
bstrVal and a SafeArray tag with a null parray both fall through to the
final switch, whose default case renders the unknown-tag marker. -/
def variant_to_string_and_store (v : Variant) (out : AttrValue) : AttrValue :=
  if v.vt = blackmagicRawVariantTypeString ∧ v.bstrVal ≠ none then
    let s := v.bstrVal.getD ""
    { out with rawValue := s, asString := "String value: " ++ s }
  else if v.vt = blackmagicRawVariantTypeSafeArray ∧ v.parray ≠ none then
    decodeSafeArray (v.parray.getD {}) out
  else
    { out with asString := scalarDisplay v }

/-! ### Attribute identities and the attribute cache -/

inductive BlackmagicRawImmersiveAttribute where
  | opticalLensProcessingDataFileUUID
  | opticalILPDFileName
  | opticalInteraxial
  | opticalProjectionKind
  | opticalCalibrationType
  | opticalProjectionData
deriving DecidableEq

/-- The fixed ordered extraction list of the source. -/
def ATTR_LIST : List BlackmagicRawImmersiveAttribute :=
  [.opticalLensProcessingDataFileUUID,
   .opticalILPDFileName,
   .opticalInteraxial,
   .opticalProjectionKind,
   .opticalCalibrationType,
   .opticalProjectionData]

def ATTR_COUNT : Nat := ATTR_LIST.length

def attr_name : BlackmagicRawImmersiveAttribute → String
  | .opticalLensProcessingDataFileUUID => "OpticalLensProcessingDataFileUUID"
  | .opticalILPDFileName => "OpticalILPDFileName"
  | .opticalInteraxial => "OpticalInteraxial"
  | .opticalProjectionKind => "OpticalProjectionKind"
  | .opticalCalibrationType => "OpticalCalibrationType"
  | .opticalProjectionData => "OpticalProjectionData"

def attr_desc : BlackmagicRawImmersiveAttribute → String
  | .opticalLensProcessingDataFileUUID => "UUID of the projection data file"
  | .opticalILPDFileName => "Name of the ILPD projection data file"
  | .opticalInteraxial => "Interaxial lens separation"
  | .opticalProjectionKind =>
      "Projection kind (\x27fish\x27 indicates Apple immersive video)"
  | .opticalCalibrationType =>
      "Calibration type (\x27meiRives\x27 indicates ILPD lens projection)"
  | .opticalProjectionData => "The contents of the projection data file (ILPD)"

/-- Container of cached attributes; the association list models the
std::map of the source, with assocSet giving the operator bracket
insert-or-assign semantics. -/
structure ImmersiveAttrs where
  attrs : List (BlackmagicRawImmersiveAttribute × AttrValue) := []
deriving DecidableEq

def lookupAttr (m : ImmersiveAttrs) (a : BlackmagicRawImmersiveAttribute) :
    Option AttrValue :=
  assocGet m.attrs a

/-- Model of ImmersiveAttrs::hasProjectionData. -/
def ImmersiveAttrs.hasProjectionData (m : ImmersiveAttrs) : Bool :=
  match lookupAttr m .opticalProjectionData with
  | some av => !(av.rawValue = "")
  | none => false

/-- Model of ImmersiveAttrs::getProjectionData. -/
def ImmersiveAttrs.getProjectionData (m : ImmersiveAttrs) : String :=
  match lookupAttr m .opticalProjectionData with
  | some av => av.rawValue
  | none => ""

/-- One iteration of the extraction loop: a query outcome is a pair of the
HRESULT-success flag and the variant left in the memset-zeroed local v.
On success the variant is decoded; on failure the entry records only the
tag and the not-available marker, exactly as the source does. -/
def extract_one (query : BlackmagicRawImmersiveAttribute → Bool × Variant)
    (a : BlackmagicRawImmersiveAttribute) : AttrValue :=
  let v := (query a).2
  let av0 : AttrValue := { vt := v.vt }
  if (query a).1 then variant_to_string_and_store v av0
  else { av0 with asString := "[Attribute not available]" }

/-- Model of extract_all_attributes: iterates ATTR_LIST once in list
order, inserting one entry per identity into the map. -/
def extract_all_attributes
    (query : BlackmagicRawImmersiveAttribute → Bool × Variant) : ImmersiveAttrs :=
  ⟨ATTR_LIST.foldl (fun acc a => assocSet acc a (extract_one query a)) []⟩

/-! ### Output name synthesis -/

/-- Model of make_auto_ilpd_name: camera and uuid parts from the ILPD file
name attribute, then the lens UUID attribute, then the input stem, then
the literal default, finally joined as camera dot uuid dot ilpd.  The
source represents a still-unset part as the empty string. -/
def make_auto_ilpd_name (inputBraw : String) (attrs : ImmersiveAttrs) : String :=
  let parts : String × String :=
    match lookupAttr attrs .opticalILPDFileName with
    | some av =>
      if av.rawValue = "" then ("", "")
      else
        let stem := pathStem av.rawValue
        match findLastOf '.' stem.data with
        | some posDot => (⟨stem.data.take posDot⟩, ⟨stem.data.drop (posDot + 1)⟩)
        | none => (stem, "")
    | none => ("", "")
  let cameraPart := parts.1
  let uuidPart := parts.2
  let uuidPart :=
    if uuidPart = "" then
      match lookupAttr attrs .opticalLensProcessingDataFileUUID with
      | some av2 => if av2.rawValue = "" then uuidPart else av2.rawValue
      | none => uuidPart
    else uuidPart
  let cameraPart := if cameraPart = "" then pathStem inputBraw else cameraPart
  let uuidPart := if uuidPart = "" then "default" else uuidPart
  cameraPart ++ "." ++ uuidPart ++ ".ilpd"

/-- The camera part after the layered fallback described by the spec:
step one takes the part of the ILPD-file-name stem before its last dot,
step three falls back to the stem of the input hint when the camera part
is still unset (unset being the empty string in the source). -/
def specCameraPart (hint : String) (attrs : ImmersiveAttrs) : String :=
  let step1 : String :=
    match lookupAttr attrs .opticalILPDFileName with
    | some av =>
      if av.rawValue = "" then ""
      else
        let stem := pathStem av.rawValue
        match findLastOf '.' stem.data with
        | some posDot => ⟨stem.data.take posDot⟩
        | none => stem
    | none => ""
  if step1 = "" then pathStem hint else step1

/-- The uuid part after the layered fallback described by the spec:
step one takes the part of the ILPD-file-name stem after its last dot
(unset when there is no dot), step two falls back to the non-empty
rawText of the lens-processing-UUID attribute, step four to the literal
default. -/
def specUuidPart (attrs : ImmersiveAttrs) : String :=
  let step1 : String :=
    match lookupAttr attrs .opticalILPDFileName with
    | some av =>
      if av.rawValue = "" then ""
      else
        let stem := pathStem av.rawValue
        match findLastOf '.' stem.data with
        | some posDot => ⟨stem.data.drop (posDot + 1)⟩
        | none => ""
    | none => ""
  let step2 : String :=
    if step1 = "" then
      match lookupAttr attrs .opticalLensProcessingDataFileUUID with
      | some av2 => if av2.rawValue = "" then "" else av2.rawValue
      | none => ""
    else step1
  if step2 = "" then "default" else step2

/-- Name synthesis as the spec words it: the final name is the camera
part, a dot, the uuid part and the ilpd suffix, each part given by its
layered fallback. -/
def synthesizeName (hint : String) (attrs : ImmersiveAttrs) : String :=
  specCameraPart hint attrs ++ "." ++ specUuidPart attrs ++ ".ilpd"

/-! ### Filesystem model and the atomic writer

The filesystem is a flat map from path strings to file contents plus a
set of known directories and the current directory.  write_text_file_atomic
is modelled with an explicit fault parameter enumerating the failure
points of the source: exception while ensuring parent directories,
failure to create the temporary file, detected write-or-close failure,
and an exception from the rename (rename is atomic on POSIX: it either
fully replaces the destination or leaves it untouched, which is the
atomicity boundary the source relies on).  Each arm of the model is the
net filesystem effect of the corresponding control path of the source. -/

structure FileSys where
  files : List (String × String) := []
  dirs : List String := []
  cwd : String := ""
deriving DecidableEq

def FileSys.lookupFile (fs : FileSys) (p : String) : Option String :=
  assocGet fs.files p

def FileSys.setFile (fs : FileSys) (p c : String) : FileSys :=
  { fs with files := assocSet fs.files p c }

def FileSys.removeFile (fs : FileSys) (p : String) : FileSys :=
  { fs with files := assocErase fs.files p }

def FileSys.addDir (fs : FileSys) (d : String) : FileSys :=
  { fs with dirs := d :: fs.dirs }

def FileSys.pathExists (fs : FileSys) (p : String) : Bool :=
  (fs.lookupFile p).isSome || fs.dirs.contains p

def FileSys.isDirectory (fs : FileSys) (p : String) : Bool :=
  fs.dirs.contains p

/-- Where a run of write_text_file_atomic fails, if anywhere. -/
inductive WriteFault where
  | ok
  | dirsFail
  | createFail
  | closeFail
  | renameFail
deriving DecidableEq

/-- The create_directories call on the parent of the destination. -/
def ensureParent (fs : FileSys) (dest : String) : FileSys :=
  if parentPath dest ≠ "" then fs.addDir (parentPath dest) else fs

/-- Model of write_text_file_atomic over the fault parameter.  dirsFail is
the exception path of create_directories: the catch block removes the
temporary best effort.  createFail leaves no temporary behind because the
stream never opened.  closeFail writes the temporary (possibly partially)
and then removes it on the detected stream failure, so only the net
removal is visible.  renameFail has the fully written temporary removed
by the catch block, the destination untouched.  ok renames the temporary
onto the destination. -/
def write_text_file_atomic (fs : FileSys) (fault : WriteFault)
    (dest content : String) : Bool × FileSys :=
  let tmp := dest ++ ".tmp"
  match fault with
  | .dirsFail => (false, fs.removeFile tmp)
  | .createFail => (false, ensureParent fs dest)
  | .closeFail => (false, ((ensureParent fs dest).setFile tmp content).removeFile tmp)
  | .renameFail => (false, ((ensureParent fs dest).setFile tmp content).removeFile tmp)
  | .ok =>
      let fs1 := (ensureParent fs dest).setFile tmp content
      (true, (fs1.removeFile tmp).setFile dest content)

/-! ### Output path resolution -/

/-- A filesystem mutation attempted by resolve_output_path. -/
inductive FsAction where
  | createDirs (p : String)
deriving DecidableEq

/-- Model of resolve_output_path.  The returned string is empty exactly
when the source returns the empty string after a failed directory
creation (mkdirOk injects that failure).  The action list records every
create_directories call the source issues on that control path. -/
def resolve_output_path (fs : FileSys) (mkdirOk : Bool)
    (outputArg autoName : String) : String × List FsAction :=
  if outputArg = "" then (autoName, [])
  else if outputArg = "." then (autoName, [])
  else
    let shouldBeAbsolute := isAbsolutePath outputArg
    let finish : String → String :=
      fun result => if shouldBeAbsolute then fsAbsolute fs.cwd result else result
    if fs.pathExists outputArg then
      if fs.isDirectory outputArg then (finish (joinPath outputArg autoName), [])
      else (finish outputArg, [])
    else
      let ext := extensionOf outputArg
      if ext = "" ∨ ext = "." then
        if mkdirOk then (finish (joinPath outputArg autoName), [.createDirs outputArg])
        else ("", [.createDirs outputArg])
      else
        if parentPath outputArg ≠ "" then
          if mkdirOk then (finish outputArg, [.createDirs (parentPath outputArg)])
          else ("", [.createDirs (parentPath outputArg)])
        else (finish outputArg, [])

/-! ### Detailed report generation and the write stage of main -/

/-- Model of make_detailed_attributes_path: parent of the ILPD path joined
with its stem plus the fixed suffix, re-absolutized when the ILPD path is
absolute. -/
def make_detailed_attributes_path (cwd ilpdPath : String) : String :=
  let detailed := joinPath (parentPath ilpdPath)
      (pathStem ilpdPath ++ "_detailed_attributes.txt")
  if isAbsolutePath ilpdPath then fsAbsolute cwd detailed else detailed

/-- The 62-character separator line of the report header. -/
def eqLine62 : String := ⟨List.replicate 62 '='⟩

/-- The report loop of write_detailed_attributes: sequential appends to
the accumulating stream, one iteration per indexed attribute. -/
def detailedLoop (cached : ImmersiveAttrs) :
    List (Nat × BlackmagicRawImmersiveAttribute) → String → String
  | [], acc => acc
  | (i, a) :: rest, acc =>
    detailedLoop cached rest
      (acc ++ "[" ++ toString (i + 1) ++ "] " ++ attr_name a ++ "\n" ++
        "Description: " ++ attr_desc a ++ "\n" ++
        (match lookupAttr cached a with
         | none => "Not retrieved.\n\n"
         | some av => av.asString ++ "\n\n"))

/-- Model of the content construction of write_detailed_attributes.  The
generation stamp of the source is the compile-time DATE and TIME pair; it
enters here as the ts parameter. -/
def detailed_content (inputBraw ilpdPath ts : String)
    (cached : ImmersiveAttrs) : String :=
  detailedLoop cached ATTR_LIST.enum
    ("Complete Blackmagic RAW Immersive Video Attribute List (Detailed)\n" ++
      eqLine62 ++ "\n\n" ++
      "Input file: " ++ inputBraw ++ "\n" ++
      "ILPD file: " ++ ilpdPath ++ "\n" ++
      "Generated on: " ++ ts ++ "\n\n")

/-- The part of the report before the generation stamp, as the claim
describes it; it does not depend on the stamp or on the attribute set. -/
def reportHead (inputBraw ilpdPath : String) : String :=
  "Complete Blackmagic RAW Immersive Video Attribute List (Detailed)\n" ++
    eqLine62 ++ "\n\n" ++
    "Input file: " ++ inputBraw ++ "\n" ++
    "ILPD file: " ++ ilpdPath ++ "\n"

/-- One report entry as the claim describes it: the 1-based index in
brackets, the canonical name, the fixed description, then the cached
display string, or the explicit marker for an entry absent from the set. -/
def attrSection (cached : ImmersiveAttrs) (i : Nat)
    (a : BlackmagicRawImmersiveAttribute) : String :=
  "[" ++ toString (i + 1) ++ "] " ++ attr_name a ++ "\n" ++
    "Description: " ++ attr_desc a ++ "\n" ++
    (match lookupAttr cached a with
     | none => "Not retrieved.\n\n"
     | some av => av.asString ++ "\n\n")

/-- Model of write_detailed_attributes: build the content and hand it to
the atomic writer at the derived path. -/
def write_detailed_attributes (fs : FileSys) (fault : WriteFault)
    (ilpdPath inputBraw ts : String) (cached : ImmersiveAttrs) : Bool × FileSys :=
  let detailedPath := make_detailed_attributes_path fs.cwd ilpdPath
  let outStr := detailed_content inputBraw ilpdPath ts cached
  write_text_file_atomic fs fault detailedPath outStr

/-- Exit codes of the source enum used by the modelled fragment. -/
def OK : Nat := 0
def WRITE_FAIL : Nat := 7

/-- Observable outcome of the write stage of main: the exit code, the
final filesystem, whether the no-projection-data warning was logged,
the primary write that was published (path and content), and whether
report generation was entered. -/
structure StageResult where
  exitCode : Nat
  fs : FileSys
  warnedNoProjection : Bool
  primaryWrite : Option (String × String)
  reportAttempted : Bool
deriving DecidableEq

/-- Model of main from the hasProjectionData branch to the detailed
attributes step: write the primary payload only when projection data is
present and non-empty, warn and continue otherwise, and attempt the
report whenever outputAll is set and the primary write did not fail. -/
def run_write_stage (fs : FileSys) (cached : ImmersiveAttrs) (outputAll : Bool)
    (inputBraw finalOut ts : String) (fault1 fault2 : WriteFault) : StageResult :=
  if cached.hasProjectionData then
    let ilpdContent := cached.getProjectionData
    let r := write_text_file_atomic fs fault1 finalOut ilpdContent
    if r.1 then
      let fs2 := if outputAll then
          (write_detailed_attributes r.2 fault2 finalOut inputBraw ts cached).2
        else r.2
      { exitCode := OK, fs := fs2, warnedNoProjection := false,
        primaryWrite := some (finalOut, ilpdContent), reportAttempted := outputAll }
    else
      { exitCode := WRITE_FAIL, fs := r.2, warnedNoProjection := false,
        primaryWrite := none, reportAttempted := false }
  else
    let fs2 := if outputAll then
        (write_detailed_attributes fs fault2 finalOut inputBraw ts cached).2
      else fs
    { exitCode := OK, fs := fs2, warnedNoProjection := true,
      primaryWrite := none, reportAttempted := outputAll }

/-! ### Helper lemmas -/

theorem assocGet_set_self {α β : Type} [DecidableEq α] (l : List (α × β)) (a : α) (b : β) :
    assocGet (assocSet l a b) a = some b := by
  induction l with
  | nil => simp [assocGet, assocSet]
  | cons h t ih =>
    obtain ⟨k, v⟩ := h
    by_cases hk : k = a
    · simp [assocGet, assocSet, hk]
    · simp [assocGet, assocSet, hk, ih]

theorem assocGet_set_other {α β : Type} [DecidableEq α] (l : List (α × β)) (a q : α) (b : β)
    (hq : q ≠ a) : assocGet (assocSet l a b) q = assocGet l q := by
  induction l with
  | nil => simp [assocGet, assocSet, Ne.symm hq]
  | cons h t ih =>
    obtain ⟨k, v⟩ := h
    by_cases hk : k = a
    · subst hk
      simp [assocGet, assocSet, Ne.symm hq]
    · simp only [assocSet, if_neg hk, assocGet]
      by_cases hkq : k = q <;> simp [hkq, ih]

theorem assocGet_erase_self {α β : Type} [DecidableEq α] (l : List (α × β)) (a : α) :
    assocGet (assocErase l a) a = none := by
  induction l with
  | nil => simp [assocGet, assocErase]
  | cons h t ih =>
    obtain ⟨k, v⟩ := h
    by_cases hk : k = a
    · simp [assocErase, hk, ih]
    · simp [assocErase, hk, assocGet, ih]

theorem assocGet_erase_other {α β : Type} [DecidableEq α] (l : List (α × β)) (a q : α)
    (hq : q ≠ a) : assocGet (assocErase l a) q = assocGet l q := by
  induction l with
  | nil => simp [assocGet, assocErase]
  | cons h t ih =>
    obtain ⟨k, v⟩ := h
    by_cases hk : k = a
    · subst hk
      simp [assocErase, assocGet, Ne.symm hq, ih]
    · by_cases hkq : k = q <;> simp [assocErase, hk, assocGet, hkq, hq, ih]

theorem strData_append (a b : String) : (a ++ b).data = a.data ++ b.data := rfl

theorem strAppend_assoc (a b c : String) : a ++ b ++ c = a ++ (b ++ c) := by
  apply String.ext
  rw [strData_append, strData_append, strData_append, strData_append, List.append_assoc]

theorem strNil_append (s : String) : "" ++ s = s := by
  apply String.ext
  rw [strData_append]
  rfl

theorem filenameOf_no_slash (s : String) :
    ∀ c ∈ (filenameOf s).data, c ≠ '/' := by
  intro c hc
  have hc2 : c ∈ s.data.reverse.takeWhile (fun c => c ≠ '/') := by
    have hc3 : c ∈ (s.data.reverse.takeWhile (fun c => c ≠ '/')).reverse := hc
    exact List.mem_reverse.mp hc3
  have hp := List.mem_takeWhile_imp hc2
  simpa using hp

theorem stemOfFilename_subset (f : List Char) :
    ∀ c ∈ stemOfFilename f, c ∈ f := by
  intro c hc
  unfold stemOfFilename at hc
  split at hc
  · exact hc
  · split at hc
    · exact hc
    · exact hc
    · exact List.take_subset _ _ hc

theorem pathStem_no_slash (s : String) : ∀ c ∈ (pathStem s).data, c ≠ '/' := by
  intro c hc
  exact filenameOf_no_slash s c (stemOfFilename_subset _ c hc)

theorem tmp_ne_dest (dest : String) : dest ≠ dest ++ ".tmp" := by
  intro h
  have hd : dest.data = (dest ++ ".tmp").data := congrArg String.data h
  rw [strData_append] at hd
  have hl := congrArg List.length hd
  simp at hl

theorem ensureParent_files (fs : FileSys) (dest : String) :
    (ensureParent fs dest).files = fs.files := by
  unfold ensureParent FileSys.addDir
  split <;> rfl

theorem isAbs_of_noslash_head (c r : String) (h : ∀ ch ∈ c.data, ch ≠ '/')
    (hr : isAbsolutePath r = false) : isAbsolutePath (c ++ r) = false := by
  unfold isAbsolutePath at hr ⊢
  rw [strData_append]
  cases hc : c.data with
  | nil => simpa using hr
  | cons ch t =>
    have hch := h ch (by rw [hc]; exact List.mem_cons_self _ _)
    simpa using hch

theorem isAbs_dot_append (r : String) : isAbsolutePath ("." ++ r) = false := by
  unfold isAbsolutePath
  rw [strData_append]
  rfl

theorem isAbs_append_left (p r : String) (hp : p ≠ "") :
    isAbsolutePath (p ++ r) = isAbsolutePath p := by
  unfold isAbsolutePath
  rw [strData_append]
  cases hd : p.data with
  | nil =>
    have : p = "" := String.ext (by rw [hd])
    exact absurd this hp
  | cons c t => rfl

theorem append_slash_ne_empty (p : String) : p ++ "/" ≠ "" := by
  intro h
  have hd := congrArg String.data h
  rw [strData_append] at hd
  have hl := congrArg List.length hd
  simp at hl

theorem isAbs_joinPath (p q : String) (hp : p ≠ "") (hq : isAbsolutePath q = false) :
    isAbsolutePath (joinPath p q) = isAbsolutePath p := by
  unfold joinPath
  simp only [hq, Bool.false_eq_true, if_false, if_neg hp]
  split
  · exact isAbs_append_left p q hp
  · rw [isAbs_append_left (p ++ "/") q (append_slash_ne_empty p),
      isAbs_append_left p "/" hp]

theorem make_auto_not_absolute (hint : String) (attrs : ImmersiveAttrs) :
    isAbsolutePath (make_auto_ilpd_name hint attrs) = false := by
  have key : ∀ (c u : String), (∀ ch ∈ c.data, ch ≠ '/') →
      isAbsolutePath (c ++ "." ++ u ++ ".ilpd") = false := by
    intro c u hc
    rw [strAppend_assoc, strAppend_assoc]
    exact isAbs_of_noslash_head _ _ hc (isAbs_dot_append _)
  unfold make_auto_ilpd_name
  apply key
  intro ch hch
  split at hch
  · exact pathStem_no_slash hint ch hch
  · cases hL : lookupAttr attrs .opticalILPDFileName with
    | none => rw [hL] at hch; simp at hch
    | some av =>
      rw [hL] at hch
      by_cases hraw : av.rawValue = ""
      · simp [hraw] at hch
      · simp only [if_neg hraw] at hch
        cases hF : findLastOf '.' (pathStem av.rawValue).data with
        | some posDot =>
          rw [hF] at hch
          exact pathStem_no_slash av.rawValue ch
            (List.take_subset _ _ (by simpa using hch))
        | none =>
          rw [hF] at hch
          exact pathStem_no_slash av.rawValue ch (by simpa using hch)

/-! ### Claim theorems -/

/-- C1: write_text_file_atomic either succeeds, leaving the destination
holding exactly the full content and the temporary gone, or fails before
the rename, leaving the destination exactly as it was (never a partial
state) and the temporary either removed or exactly as it was before the
call (best-effort removal). -/
theorem writeAtomic_all_or_nothing (fs : FileSys) (fault : WriteFault)
    (dest content : String) :
    ((write_text_file_atomic fs fault dest content).1 = true →
      (write_text_file_atomic fs fault dest content).2.lookupFile dest = some content ∧
      (write_text_file_atomic fs fault dest content).2.lookupFile (dest ++ ".tmp") = none) ∧
    ((write_text_file_atomic fs fault dest content).1 = false →
      (write_text_file_atomic fs fault dest content).2.lookupFile dest = fs.lookupFile dest ∧
      ((write_text_file_atomic fs fault dest content).2.lookupFile (dest ++ ".tmp") = none ∨
       (write_text_file_atomic fs fault dest content).2.lookupFile (dest ++ ".tmp") =
         fs.lookupFile (dest ++ ".tmp"))) := by
  have hne : dest ≠ dest ++ ".tmp" := tmp_ne_dest dest
  have hne2 : dest ++ ".tmp" ≠ dest := Ne.symm hne
  cases fault <;>
    simp [write_text_file_atomic, FileSys.lookupFile, FileSys.setFile, FileSys.removeFile,
      ensureParent_files, assocGet_erase_self, assocGet_erase_other _ _ _ hne,
      assocGet_set_self, assocGet_set_other _ _ _ _ hne, assocGet_set_other _ _ _ _ hne2]

/-- C1 witness: a failed rename leaves the prior destination content in
place and removes the fully written temporary. -/
theorem writeAtomic_all_or_nothing_witness :
    (write_text_file_atomic ⟨[("d", "old"), ("d.tmp", "junk")], [], ""⟩
        .renameFail "d" "new").1 = false ∧
    ((write_text_file_atomic ⟨[("d", "old"), ("d.tmp", "junk")], [], ""⟩
        .renameFail "d" "new").2.lookupFile "d" =
      FileSys.lookupFile ⟨[("d", "old"), ("d.tmp", "junk")], [], ""⟩ "d" ∧
     ((write_text_file_atomic ⟨[("d", "old"), ("d.tmp", "junk")], [], ""⟩
        .renameFail "d" "new").2.lookupFile ("d" ++ ".tmp") = none ∨
      (write_text_file_atomic ⟨[("d", "old"), ("d.tmp", "junk")], [], ""⟩
        .renameFail "d" "new").2.lookupFile ("d" ++ ".tmp") =
        FileSys.lookupFile ⟨[("d", "old"), ("d.tmp", "junk")], [], ""⟩ ("d" ++ ".tmp"))) :=
  ⟨by decide,
   (writeAtomic_all_or_nothing ⟨[("d", "old"), ("d.tmp", "junk")], [], ""⟩
      .renameFail "d" "new").2 (by decide)⟩

/-- C10: resolve_output_path touches the filesystem only when the user
argument is non-empty, not the dot, and names a non-existent path; there
it creates the path itself as a directory when the path has no extension
(or a bare dot extension), and otherwise the parent directories of the
extension-bearing path, when there are any.  For an empty argument, the
dot, or an existing path, no filesystem mutation is attempted at all. -/
theorem resolve_frame_effect (fs : FileSys) (mkdirOk : Bool) (arg an : String) :
    ((arg = "" ∨ arg = "." ∨ fs.pathExists arg = true) →
      (resolve_output_path fs mkdirOk arg an).2 = []) ∧
    ((resolve_output_path fs mkdirOk arg an).2 ≠ [] →
      arg ≠ "" ∧ arg ≠ "." ∧ fs.pathExists arg = false) ∧
    (fs.pathExists arg = false → arg ≠ "" → arg ≠ "." →
      ((extensionOf arg = "" ∨ extensionOf arg = ".") →
        (resolve_output_path fs mkdirOk arg an).2 = [.createDirs arg]) ∧
      (¬(extensionOf arg = "" ∨ extensionOf arg = ".") →
        (resolve_output_path fs mkdirOk arg an).2 =
          if parentPath arg ≠ "" then [.createDirs (parentPath arg)] else [])) := by
  unfold resolve_output_path
  by_cases h1 : arg = ""
  · simp [h1]
  · by_cases h2 : arg = "."
    · simp [h1, h2]
    · by_cases h3 : fs.pathExists arg
      · by_cases h4 : fs.isDirectory arg <;> simp [h1, h2, h3, h4]
      · by_cases h5 : extensionOf arg = "" ∨ extensionOf arg = "."
        · cases mkdirOk <;> simp [h1, h2, h3, h5]
        · by_cases h6 : parentPath arg = "" <;> cases mkdirOk <;>
            simp [h1, h2, h3, h5, h6]

/-- C10 witness: an argument naming an existing directory performs no
filesystem mutation. -/
theorem resolve_frame_effect_witness :
    ((FileSys.pathExists ⟨[], ["out"], ""⟩ "out" = true) ∧
      (resolve_output_path ⟨[], ["out"], ""⟩ true "out" "a.ilpd").2 = []) :=
  ⟨by decide,
   (resolve_frame_effect ⟨[], ["out"], ""⟩ true "out" "a.ilpd").1
     (Or.inr (Or.inr (by decide)))⟩

/-- C8: when the user output argument names an existing directory,
resolve_output_path returns that directory joined with the synthesized
auto name, attempts no filesystem mutation, and the returned path is
absolute exactly when the user-supplied path was absolute. -/
theorem resolve_existing_dir (fs : FileSys) (mkdirOk : Bool) (arg hint : String)
    (attrs : ImmersiveAttrs)
    (h1 : arg ≠ "") (h2 : arg ≠ ".") (h3 : fs.pathExists arg = true)
    (h4 : fs.isDirectory arg = true) :
    (resolve_output_path fs mkdirOk arg (make_auto_ilpd_name hint attrs)).1 =
      joinPath arg (make_auto_ilpd_name hint attrs) ∧
    isAbsolutePath
        (resolve_output_path fs mkdirOk arg (make_auto_ilpd_name hint attrs)).1 =
      isAbsolutePath arg ∧
    (resolve_output_path fs mkdirOk arg (make_auto_ilpd_name hint attrs)).2 = [] := by
  have hauto := make_auto_not_absolute hint attrs
  have hjoin := isAbs_joinPath arg (make_auto_ilpd_name hint attrs) h1 hauto
  unfold resolve_output_path
  simp only [if_neg h1, if_neg h2, h3, h4, if_true]
  by_cases habs : isAbsolutePath arg
  · simp [habs, fsAbsolute, hjoin]
  · simp [habs, hjoin]

/-- C8 witness: an existing relative directory out resolves to out slash
auto name, relative, with no mutation. -/
theorem resolve_existing_dir_witness :
    (("out" : String) ≠ "" ∧ ("out" : String) ≠ "." ∧
      FileSys.pathExists ⟨[], ["out"], ""⟩ "out" = true ∧
      FileSys.isDirectory ⟨[], ["out"], ""⟩ "out" = true) ∧
    ((resolve_output_path ⟨[], ["out"], ""⟩ true "out"
        (make_auto_ilpd_name "clip.braw" ⟨[]⟩)).1 =
      joinPath "out" (make_auto_ilpd_name "clip.braw" ⟨[]⟩) ∧
     isAbsolutePath (resolve_output_path ⟨[], ["out"], ""⟩ true "out"
        (make_auto_ilpd_name "clip.braw" ⟨[]⟩)).1 = isAbsolutePath "out" ∧
     (resolve_output_path ⟨[], ["out"], ""⟩ true "out"
        (make_auto_ilpd_name "clip.braw" ⟨[]⟩)).2 = []) :=
  ⟨⟨by decide, by decide, by decide, by decide⟩,
   resolve_existing_dir ⟨[], ["out"], ""⟩ true "out" "clip.braw" ⟨[]⟩
     (by decide) (by decide) (by decide) (by decide)⟩

/-- C2: for every sequence of per-attribute query outcomes,
extract_all_attributes inserts exactly one entry for each of the six
fixed attribute identities, in list order, yielding a set of size six; a
failed query never aborts the batch and is recorded as an entry carrying
only the variant tag and the not-available marker. -/
theorem extractAll_six (query : BlackmagicRawImmersiveAttribute → Bool × Variant) :
    (extract_all_attributes query).attrs.map Prod.fst = ATTR_LIST ∧
    (extract_all_attributes query).attrs.length = 6 ∧
    (∀ a ∈ ATTR_LIST,
      lookupAttr (extract_all_attributes query) a = some (extract_one query a)) ∧
    (∀ a, (query a).1 = false →
      lookupAttr (extract_all_attributes query) a =
        some { vt := (query a).2.vt, asString := "[Attribute not available]" }) := by
  refine ⟨?_, ?_, ?_, ?_⟩
  · simp [extract_all_attributes, ATTR_LIST, assocSet]
  · simp [extract_all_attributes, ATTR_LIST, assocSet]
  · intro a ha
    cases a <;> simp [extract_all_attributes, lookupAttr, ATTR_LIST, assocSet, assocGet]
  · intro a hfail
    have hone : extract_one query a =
        { vt := (query a).2.vt, asString := "[Attribute not available]" } := by
      simp [extract_one, hfail]
    cases a <;>
      simp [extract_all_attributes, lookupAttr, ATTR_LIST, assocSet, assocGet, hone]

/-- C2 witness: with every query failing, the projection-data identity is
recorded as a not-available entry. -/
theorem extractAll_six_witness :
    ((fun _ : BlackmagicRawImmersiveAttribute => (false, ({} : Variant)))
        BlackmagicRawImmersiveAttribute.opticalProjectionData).1 = false ∧
    lookupAttr (extract_all_attributes
        (fun _ => (false, ({} : Variant)))) .opticalProjectionData =
      some { vt := 0, asString := "[Attribute not available]" } :=
  ⟨by decide,
   (extractAll_six (fun _ => (false, ({} : Variant)))).2.2.2 _ (by decide)⟩

theorem decodeSafeArray_rawValue (pa : SafeArrayPayload) (out : AttrValue) :
    (decodeSafeArray pa out).rawValue = out.rawValue := by
  unfold decodeSafeArray
  cases pa.data <;> simp <;> split <;> simp <;> split <;> split <;> rfl

/-- C6: every AttrValue produced by the decoder from a fresh record
populates at most one of rawValue and rawBytes; a tag that is neither the
string tag nor the array tag (the scalar kinds and all unknown tags)
populates neither; and the entry recorded for a failed query carries only
the variant tag and the not-available display marker, every other field
left at its empty default. -/
theorem decode_raw_fields_invariant :
    (∀ (v : Variant) (vt0 : Nat),
      ((variant_to_string_and_store v { vt := vt0 }).rawValue = "" ∨
       (variant_to_string_and_store v { vt := vt0 }).rawBytes = []) ∧
      (v.vt ≠ blackmagicRawVariantTypeString → v.vt ≠ blackmagicRawVariantTypeSafeArray →
        (variant_to_string_and_store v { vt := vt0 }).rawValue = "" ∧
        (variant_to_string_and_store v { vt := vt0 }).rawBytes = [])) ∧
    (∀ (query : BlackmagicRawImmersiveAttribute → Bool × Variant) a,
      (query a).1 = false →
      extract_one query a =
        { vt := (query a).2.vt, asString := "[Attribute not available]",
          rawValue := "", rawBytes := [],
          safeArrayElementCount := 0, safeArrayVariantType := 0 }) := by
  constructor
  · intro v vt0
    constructor
    · unfold variant_to_string_and_store
      split
      · simp
      · split
        · exact Or.inl (by rw [decodeSafeArray_rawValue])
        · simp
    · intro hs ha
      unfold variant_to_string_and_store
      rw [if_neg (by simp [hs]), if_neg (by simp [ha])]
      simp
  · intro query a hfail
    simp [extract_one, hfail]

/-- C6 witness: a U8 scalar populates neither raw field, and a failed
query yields the bare not-available entry. -/
theorem decode_raw_fields_invariant_witness :
    (({ vt := blackmagicRawVariantTypeU8, uiVal := 7 } : Variant).vt ≠
        blackmagicRawVariantTypeString ∧
     ({ vt := blackmagicRawVariantTypeU8, uiVal := 7 } : Variant).vt ≠
        blackmagicRawVariantTypeSafeArray) ∧
    ((variant_to_string_and_store { vt := blackmagicRawVariantTypeU8, uiVal := 7 }
        { vt := 1 }).rawValue = "" ∧
     (variant_to_string_and_store { vt := blackmagicRawVariantTypeU8, uiVal := 7 }
        { vt := 1 }).rawBytes = []) :=
  ⟨⟨by decide, by decide⟩,
   (decode_raw_fields_invariant.1 { vt := blackmagicRawVariantTypeU8, uiVal := 7 } 1).2
     (by decide) (by decide)⟩

theorem decode_safeArray_case (pa : SafeArrayPayload) (out : AttrValue) :
    variant_to_string_and_store
      { vt := blackmagicRawVariantTypeSafeArray, parray := some pa } out =
    decodeSafeArray pa out := by
  unfold variant_to_string_and_store
  rw [if_neg (by simp [blackmagicRawVariantTypeSafeArray, blackmagicRawVariantTypeString]),
    if_pos (by simp)]
  rfl

theorem decodeSafeArray_big (vtN cElems : Nat) (bytes : List Nat) (out : AttrValue)
    (hbig : 512 < elementSizeOf vtN * cElems) :
    decodeSafeArray ⟨vtN, cElems, some bytes⟩ out =
      { out with
        safeArrayElementCount := cElems,
        safeArrayVariantType := vtN,
        rawBytes := bytes.take (min (elementSizeOf vtN * cElems) 65536),
        asString := "SafeArray elems=" ++ toString cElems ++ ", type=" ++ toString vtN ++
          ", totalSize=" ++ toString (elementSizeOf vtN * cElems) ++
          ", hex(first " ++ toString 512 ++ " bytes)=" ++ hexSpaced (bytes.take 512) ++
          " ... (truncated)" } := by
  have hcpos : 0 < cElems := by
    rcases Nat.eq_zero_or_pos cElems with h0 | h
    · subst h0; simp at hbig
    · exact h
  unfold decodeSafeArray
  simp only [gt_iff_lt, if_pos hcpos, COPY_LIMIT, PREVIEW_LIMIT]
  by_cases hcopy : 64 * 1024 < elementSizeOf vtN * cElems
  · have hmin : min (elementSizeOf vtN * cElems) 65536 = 65536 := by omega
    rw [if_pos hcopy, if_pos (by omega : (0 : Nat) < 65536),
      if_pos (by omega : 512 < 65536), if_pos (by omega : 512 < elementSizeOf vtN * cElems),
      hmin]
  · have hmin : min (elementSizeOf vtN * cElems) 65536 =
        elementSizeOf vtN * cElems := by omega
    rw [if_neg hcopy, if_pos (by omega : 0 < elementSizeOf vtN * cElems),
      if_pos hbig, if_pos (by omega : 512 < elementSizeOf vtN * cElems), hmin]

/-- C4: decoding a SafeArray whose total byte size exceeds 512 yields a
display carrying the truncation marker and a hex preview of exactly 512
bytes, while rawBytes receives the first min of the total size and 64 KiB
bytes of the source buffer: the copy bound is independent of the preview
bound. -/
theorem bytearray_bounds (vtN cElems vt0 : Nat) (bytes : List Nat)
    (hlen : bytes.length = elementSizeOf vtN * cElems)
    (hbig : 512 < elementSizeOf vtN * cElems) :
    (variant_to_string_and_store
        { vt := blackmagicRawVariantTypeSafeArray,
          parray := some { variantType := vtN, cElements := cElems, data := some bytes } }
        { vt := vt0 }).rawBytes =
      bytes.take (min (elementSizeOf vtN * cElems) 65536) ∧
    (variant_to_string_and_store
        { vt := blackmagicRawVariantTypeSafeArray,
          parray := some { variantType := vtN, cElements := cElems, data := some bytes } }
        { vt := vt0 }).rawBytes.length = min (elementSizeOf vtN * cElems) 65536 ∧
    (variant_to_string_and_store
        { vt := blackmagicRawVariantTypeSafeArray,
          parray := some { variantType := vtN, cElements := cElems, data := some bytes } }
        { vt := vt0 }).asString =
      "SafeArray elems=" ++ toString cElems ++ ", type=" ++ toString vtN ++
        ", totalSize=" ++ toString (elementSizeOf vtN * cElems) ++
        ", hex(first " ++ toString 512 ++ " bytes)=" ++ hexSpaced (bytes.take 512) ++
        " ... (truncated)" ∧
    (bytes.take 512).length = 512 := by
  rw [decode_safeArray_case, decodeSafeArray_big vtN cElems bytes _ hbig]
  refine ⟨rfl, ?_, rfl, ?_⟩
  · simp [List.length_take, hlen]
    try omega
  · simp [List.length_take, hlen]
    try omega

/-- C4 witness: 513 one-byte elements give a 512-pair preview with the
truncation marker and a full 513-byte raw copy. -/
theorem bytearray_bounds_witness :
    ((List.replicate 513 0).length = elementSizeOf blackmagicRawVariantTypeU8 * 513 ∧
      512 < elementSizeOf blackmagicRawVariantTypeU8 * 513) ∧
    ((variant_to_string_and_store
        { vt := blackmagicRawVariantTypeSafeArray,
          parray := some { variantType := blackmagicRawVariantTypeU8,
                           cElements := 513,
                           data := some (List.replicate 513 0) } }
        { vt := 0 }).rawBytes =
      (List.replicate 513 0).take
        (min (elementSizeOf blackmagicRawVariantTypeU8 * 513) 65536) ∧
     (variant_to_string_and_store
        { vt := blackmagicRawVariantTypeSafeArray,
          parray := some { variantType := blackmagicRawVariantTypeU8,
                           cElements := 513,
                           data := some (List.replicate 513 0) } }
        { vt := 0 }).rawBytes.length =
      min (elementSizeOf blackmagicRawVariantTypeU8 * 513) 65536 ∧
     (variant_to_string_and_store
        { vt := blackmagicRawVariantTypeSafeArray,
          parray := some { variantType := blackmagicRawVariantTypeU8,
                           cElements := 513,
                           data := some (List.replicate 513 0) } }
        { vt := 0 }).asString =
      "SafeArray elems=" ++ toString 513 ++ ", type=" ++
        toString blackmagicRawVariantTypeU8 ++
        ", totalSize=" ++ toString (elementSizeOf blackmagicRawVariantTypeU8 * 513) ++
        ", hex(first " ++ toString 512 ++ " bytes)=" ++
        hexSpaced ((List.replicate 513 0).take 512) ++
        " ... (truncated)" ∧
     ((List.replicate 513 0).take 512).length = 512) :=
  ⟨⟨by rw [List.length_replicate]; norm_num [elementSizeOf, blackmagicRawVariantTypeU8],
    by decide⟩,
   bytearray_bounds blackmagicRawVariantTypeU8 513 0 (List.replicate 513 0)
     (by rw [List.length_replicate]; norm_num [elementSizeOf, blackmagicRawVariantTypeU8])
     (by decide)⟩

/-- C5 counterexample: a ByteArray-tagged variant with a null array
descriptor does not render SafeArray(empty); the guard on the SafeArray
branch requires a non-null parray, so the value falls through to the
default switch case and renders the unknown-tag marker instead. -/
theorem safeArray_null_descriptor_counterexample :
    (variant_to_string_and_store
        { vt := blackmagicRawVariantTypeSafeArray }
        { vt := blackmagicRawVariantTypeSafeArray }).asString =
      "[Unknown vt=" ++ toString blackmagicRawVariantTypeSafeArray ++ "]" ∧
    (variant_to_string_and_store
        { vt := blackmagicRawVariantTypeSafeArray }
        { vt := blackmagicRawVariantTypeSafeArray }).asString ≠
      "SafeArray(empty)" := by
  decide

/-- C5 amended: a ByteArray value with a non-null array descriptor whose
data pointer is null or whose element count is zero decodes to the
SafeArray(empty) display with no bytes copied; a null array descriptor
instead falls through to the unknown-tag rendering, still with no bytes
copied. -/
theorem safeArray_empty_buffer (pa : SafeArrayPayload) (vt0 : Nat)
    (h : pa.data = none ∨ pa.cElements = 0) :
    (variant_to_string_and_store
        { vt := blackmagicRawVariantTypeSafeArray, parray := some pa }
        { vt := vt0 }).asString = "SafeArray(empty)" ∧
    (variant_to_string_and_store
        { vt := blackmagicRawVariantTypeSafeArray, parray := some pa }
        { vt := vt0 }).rawBytes = [] ∧
    (variant_to_string_and_store
        { vt := blackmagicRawVariantTypeSafeArray, parray := none }
        { vt := vt0 }).rawBytes = [] := by
  rw [decode_safeArray_case]
  refine ⟨?_, ?_, rfl⟩ <;>
  · unfold decodeSafeArray
    rcases h with h | h
    · rw [h]
    · cases hd : pa.data with
      | none => rfl
      | some bytes => simp [h]

/-- C5 amended witness: a non-null descriptor with a null data pointer
yields the empty rendering and no copied bytes. -/
theorem safeArray_empty_buffer_witness :
    (({ variantType := 0, cElements := 5, data := none } : SafeArrayPayload).data = none ∨
     ({ variantType := 0, cElements := 5, data := none } : SafeArrayPayload).cElements = 0) ∧
    ((variant_to_string_and_store
        { vt := blackmagicRawVariantTypeSafeArray,
          parray := some { variantType := 0, cElements := 5, data := none } }
        { vt := 9 }).asString = "SafeArray(empty)" ∧
     (variant_to_string_and_store
        { vt := blackmagicRawVariantTypeSafeArray,
          parray := some { variantType := 0, cElements := 5, data := none } }
        { vt := 9 }).rawBytes = [] ∧
     (variant_to_string_and_store
        { vt := blackmagicRawVariantTypeSafeArray, parray := none }
        { vt := 9 }).rawBytes = []) :=
  ⟨by decide,
   safeArray_empty_buffer { variantType := 0, cElements := 5, data := none } 9
     (by decide)⟩

/-- C3: make_auto_ilpd_name implements exactly the layered fallback of the
spec, as formalized by synthesizeName (camera from the ILPD-file-name
stem before its last dot, else the input stem; uuid from the part after
that dot, else the lens UUID attribute, else the literal default; name
camera dot uuid dot ilpd).  In particular an ILPD file name
CAM1.ABCD1234.ilpd alone yields CAM1.ABCD1234.ilpd, and no naming
attributes with hint clip001.braw yield clip001.default.ilpd. -/
theorem name_synthesis_priority :
    (∀ (hint : String) (attrs : ImmersiveAttrs),
      make_auto_ilpd_name hint attrs = synthesizeName hint attrs) ∧
    make_auto_ilpd_name "input.braw"
      (extract_all_attributes (fun a =>
        if a = .opticalILPDFileName then
          (true, { vt := blackmagicRawVariantTypeString,
                   bstrVal := some "CAM1.ABCD1234.ilpd" })
        else (false, {}))) = "CAM1.ABCD1234.ilpd" ∧
    make_auto_ilpd_name "clip001.braw"
      (extract_all_attributes (fun _ => (false, {}))) = "clip001.default.ilpd" := by
  refine ⟨?_, by decide, by decide⟩
  intro hint attrs
  unfold make_auto_ilpd_name synthesizeName specCameraPart specUuidPart
  cases hL : lookupAttr attrs .opticalILPDFileName with
  | none =>
    cases hU : lookupAttr attrs .opticalLensProcessingDataFileUUID with
    | none => simp [hL, hU]
    | some av2 => simp [hL, hU]
  | some av =>
    by_cases hraw : av.rawValue = ""
    · cases hU : lookupAttr attrs .opticalLensProcessingDataFileUUID with
      | none => simp [hL, hU, hraw]
      | some av2 => simp [hL, hU, hraw]
    · cases hF : findLastOf '.' (pathStem av.rawValue).data with
      | none =>
        cases hU : lookupAttr attrs .opticalLensProcessingDataFileUUID with
        | none => simp [hL, hU, hraw, hF]
        | some av2 => simp [hL, hU, hraw, hF]
      | some i =>
        cases hU : lookupAttr attrs .opticalLensProcessingDataFileUUID with
        | none =>
          simp only [hL, hU, hraw, hF, if_neg hraw]
          simp
          split_ifs <;> simp_all
        | some av2 =>
          simp only [hL, hU, hraw, hF, if_neg hraw]
          simp
          split_ifs <;> simp_all

/-- C7: when the projection-data attribute is absent, did not decode as
text (so its rawValue stayed empty), or decoded empty, the write stage
publishes no primary file, records the warning, exits with the OK code,
and still enters report generation when requested; when the attribute is
cached with non-empty rawValue and the write succeeds, the primary file
content is exactly that rawValue verbatim.  The last two conjuncts tie
non-text decodes to an empty rawValue. -/
theorem projection_payload_policy (fs : FileSys) (cached : ImmersiveAttrs)
    (outputAll : Bool) (inputBraw finalOut ts : String) (f1 f2 : WriteFault) :
    (cached.hasProjectionData = false →
      (run_write_stage fs cached outputAll inputBraw finalOut ts f1 f2).primaryWrite =
        none ∧
      (run_write_stage fs cached outputAll inputBraw finalOut ts f1 f2).warnedNoProjection =
        true ∧
      (run_write_stage fs cached outputAll inputBraw finalOut ts f1 f2).exitCode = OK ∧
      (run_write_stage fs cached outputAll inputBraw finalOut ts f1 f2).reportAttempted =
        outputAll) ∧
    (∀ av, lookupAttr cached .opticalProjectionData = some av → av.rawValue ≠ "" →
      f1 = WriteFault.ok →
      (run_write_stage fs cached outputAll inputBraw finalOut ts f1 f2).primaryWrite =
        some (finalOut, av.rawValue) ∧
      (run_write_stage fs cached outputAll inputBraw finalOut ts f1 f2).exitCode = OK ∧
      (run_write_stage fs cached outputAll inputBraw finalOut ts f1 f2).reportAttempted =
        outputAll) ∧
    (∀ (v : Variant) (vt0 : Nat), v.vt ≠ blackmagicRawVariantTypeString →
      (variant_to_string_and_store v { vt := vt0 }).rawValue = "") ∧
    (∀ (v : Variant) (vt0 : Nat), v.bstrVal = none →
      (variant_to_string_and_store v { vt := vt0 }).rawValue = "") := by
  refine ⟨?_, ?_, ?_, ?_⟩
  · intro h
    simp [run_write_stage, h]
  · intro av hav hne hf1
    subst hf1
    have hproj : cached.hasProjectionData = true := by
      simp [ImmersiveAttrs.hasProjectionData, hav, hne]
    have hget : cached.getProjectionData = av.rawValue := by
      simp [ImmersiveAttrs.getProjectionData, hav]
    simp [run_write_stage, hproj, hget, write_text_file_atomic]
  · intro v vt0 hs
    unfold variant_to_string_and_store
    rw [if_neg (by simp [hs])]
    split
    · rw [decodeSafeArray_rawValue]
    · rfl
  · intro v vt0 hb
    unfold variant_to_string_and_store
    rw [if_neg (by simp [hb])]
    split
    · rw [decodeSafeArray_rawValue]
    · rfl

/-- C7 witness: an empty cache has no projection data, so no primary file
is published, the warning is recorded, the exit code is OK and the report
is still attempted. -/
theorem projection_payload_policy_witness :
    (ImmersiveAttrs.hasProjectionData ⟨[]⟩ = false) ∧
    ((run_write_stage ⟨[], [], ""⟩ ⟨[]⟩ true "in.braw" "out.ilpd" "ts"
        .ok .ok).primaryWrite = none ∧
     (run_write_stage ⟨[], [], ""⟩ ⟨[]⟩ true "in.braw" "out.ilpd" "ts"
        .ok .ok).warnedNoProjection = true ∧
     (run_write_stage ⟨[], [], ""⟩ ⟨[]⟩ true "in.braw" "out.ilpd" "ts"
        .ok .ok).exitCode = OK ∧
     (run_write_stage ⟨[], [], ""⟩ ⟨[]⟩ true "in.braw" "out.ilpd" "ts"
        .ok .ok).reportAttempted = true) :=
  ⟨by decide,
   (projection_payload_policy ⟨[], [], ""⟩ ⟨[]⟩ true "in.braw" "out.ilpd" "ts"
      .ok .ok).1 (by decide)⟩

/-- C9: the rendered report is a pure function of the attribute set, the
input path and the primary output path, factoring as a head that does not
depend on the generation stamp, the explicitly labeled stamp line, and
the entry block: the fixed attribute list in canonical order with 1-based
indices, canonical name, fixed description, and the cached display string
or the explicit not-retrieved marker.  Two runs on the same inputs can
therefore differ only in the stamp line. -/
theorem report_content_deterministic (inputBraw ilpdPath ts : String)
    (cached : ImmersiveAttrs) :
    detailed_content inputBraw ilpdPath ts cached =
      reportHead inputBraw ilpdPath ++ ("Generated on: " ++ ts ++ "\n\n") ++
        String.join (ATTR_LIST.enum.map (fun p => attrSection cached p.1 p.2)) := by
  have henum : ATTR_LIST.enum =
      [(0, .opticalLensProcessingDataFileUUID), (1, .opticalILPDFileName),
       (2, .opticalInteraxial), (3, .opticalProjectionKind),
       (4, .opticalCalibrationType), (5, .opticalProjectionData)] := rfl
  rw [detailed_content, henum]
  simp only [detailedLoop, reportHead, attrSection, String.join, List.map, List.foldl]
  simp only [strAppend_assoc, strNil_append]

end Braw2Ilpd
